import Mathlib

/-!
Verification development for the `PSJSModel` class of the IGCexpansion
repository (`src/IGCexpansion/PSJSModel.py`): a pairwise-site joint-state
rate model for interlocus gene conversion (IGC) combined with point
mutation.

Shallow embedding conventions:
* joint states (Python tuples of nucleotide indices) are `List Nat`;
* Python floats are real numbers `ℝ`;
* a Python `assert` failure or `sys.exit(msg)` is `Except.error` carrying a
  descriptive message, a normal return is `Except.ok`;
* mutating methods return the post-call object state together with the
  outcome (`PSJSModel × Except String Unit`), so that the state reached
  when an exception is raised mid-method is observable, exactly as in
  Python where attribute writes before a failing assert persist;
* the external point-mutation collaborator `PMModel` (its own file is not
  part of the reviewed source) is modelled from the spec as an abstract
  rate-table holder, see `PMModel` below.
-/

/-- A joint state of two paralogs at two sites: the Python code uses plain
tuples of nucleotide indices, embedded here as lists of naturals. -/
abbrev JState := List Nat

/-- Modelled from the spec: the external Point-Mutation Collaborator class
`PMModel` (file `PMModel.py`, not under the reviewed source). Per the spec
it is constructible from a model name, a parameter slice and a force map,
exposes an indexable instantaneous rate table `Q_mut` over the single-locus
alphabet, and exposes an update operation taking a new parameter slice that
reconstructs the internal rates. The concrete HKY rate construction is not
part of the reviewed source, so the rule `build` deriving the rate table
from the stored parameter slice is kept abstract. -/
structure PMModel where
  build : List ℝ → Nat → Nat → ℝ
  x_pm : List ℝ

/-- Modelled from the spec: the collaborator exposes the rate table
`Q_mut[from_symbol, to_symbol]`, derived from its stored parameter slice. -/
def PMModel.Q_mut (pm : PMModel) : Nat → Nat → ℝ := pm.build pm.x_pm

/-- Modelled from the spec: `PMModel.update_by_x_pm` stores a new parameter
slice and reconstructs the internal rates from it. -/
def PMModel.update_by_x_pm (pm : PMModel) (x : List ℝ) : PMModel :=
  { pm with x_pm := x }

/-- Modelled from the spec: `PMModel.supported`, the set of point-mutation
model names accepted by the external collaborator; the spec names `HKY`
(4 parameters) as the supported point-mutation model. -/
def PMModel.supported : List String := ["HKY"]

/-- The model state of the `PSJSModel` Python class: its attributes as set
by `__init__` and mutated by `unpack_x_js` and `update_by_x_js`. -/
structure PSJSModel where
  n_js : Nat
  x_js : List ℝ
  x_pm : List ℝ
  x_IGC : List ℝ
  IGC_force : Option (List (Nat × ℝ))
  force : Option (List (Nat × ℝ))
  IGC_pm : String
  pm_model : String
  n_orlg : Nat
  PMModel : PMModel
  state_space_shape : List Nat

/-- Source line 17: `supported = ['One rate']`. -/
def PSJSModel.supported : List String := ["One rate"]

/-- The list of positions at which the two states differ, exactly as the
source computes it: `[i for i in range(len(state_from)) if state_from[i] != state_to[i]]`. -/
def diff_positions (state_from state_to : JState) : List Nat :=
  (List.range state_from.length).filter
    (fun i => decide (state_from.getD i 0 ≠ state_to.getD i 0))

/-- Embedding of `PSJSModel.is_transition_compatible` (source lines 106-129).
The two leading guards are the Python asserts on the state-space shape
length and the state tuple lengths; the assert `len(transition) == 2` is
structural here because a transition is a pair. -/
def PSJSModel.is_transition_compatible (m : PSJSModel) (transition : JState × JState) :
    Except String Bool :=
  if m.state_space_shape.length = 4 then
    if transition.1.length = transition.2.length ∧
       transition.2.length = m.state_space_shape.length then
      if transition.1 = transition.2 then .ok false
      else
        let pos_list := diff_positions transition.1 transition.2
        if pos_list.length > 2 then .ok false
        else if pos_list.length = 2 then
          if (pos_list = [0, 1] ∧ transition.2.getD 0 0 = transition.1.getD 2 0 ∧
                transition.2.getD 1 0 = transition.1.getD 3 0) ∨
             (pos_list = [2, 3] ∧ transition.2.getD 2 0 = transition.1.getD 0 0 ∧
                transition.2.getD 3 0 = transition.1.getD 1 0) then .ok true
          else .ok false
        else if pos_list.length = 1 then .ok true
        else .error "Check is_transition_compatible function in PSJSModel class."
    else .error "AssertionError: state tuple lengths"
  else .error "AssertionError: len(state_space_shape) == 4"

/-- Embedding of `PSJSModel.get_other_pos` (source lines 207-218). -/
def get_other_pos (pos : Nat) : Except String (Nat × Nat × Nat) :=
  if pos = 0 then .ok (1, 2, 3)
  else if pos = 1 then .ok (0, 3, 2)
  else if pos = 2 then .ok (3, 0, 1)
  else if pos = 3 then .ok (2, 1, 0)
  else .error "Position out of range."

/-- Source line 147: `IGC_0_not_n = IGC_init / IGC_p * (1 - (1 - IGC_p) ** n)`,
the rate of conversion tracts that cover the origin site but not the site at
distance `n` (the rate the spec calls `rate_tract_excludes_n`). -/
noncomputable def IGC_0_not_n (IGC_init IGC_p : ℝ) (n : Nat) : ℝ :=
  IGC_init / IGC_p * (1 - (1 - IGC_p) ^ n)

/-- Source line 148: `IGC_0_and_n = IGC_init / IGC_p * (1 - IGC_p) ** n`,
the rate of conversion tracts covering both the origin site and the site at
distance `n` (the rate the spec calls `rate_tract_includes_n`). -/
noncomputable def IGC_0_and_n (IGC_init IGC_p : ℝ) (n : Nat) : ℝ :=
  IGC_init / IGC_p * (1 - IGC_p) ^ n

/-- Embedding of `PSJSModel.unpack_x_js` (source lines 38-55). Returns the
post-call object state together with the outcome. Attribute writes happen
in source order: the slices `x_pm`, `x_IGC` and the vector `x_js` are
stored (lines 52-54) before the final length assert (line 55), so on a
length mismatch the returned state already carries the new vector. -/
def PSJSModel.unpack_x_js (m : PSJSModel) (x_js : List ℝ) :
    PSJSModel × Except String Unit :=
  if m.pm_model ∈ PMModel.supported then
    if m.IGC_pm ∈ PSJSModel.supported then
      match (if m.pm_model = "HKY" then some 4 else none) with
      | none => (m, .error "The point mutation model is not supported.")
      | some num_x_pm =>
        match (if m.IGC_pm = "One rate" then some 2 else none) with
        | none => (m, .error "The IGC parameterization has not been implemented.")
        | some num_x_IGC =>
          let m' := { m with x_pm := x_js.take num_x_pm,
                             x_IGC := x_js.drop num_x_pm,
                             x_js := x_js }
          if num_x_pm + num_x_IGC = m'.x_js.length then (m', .ok ())
          else (m', .error "AssertionError: num_x_pm + num_x_IGC == len(x_js)")
    else (m, .error "AssertionError: IGC_pm in PSJSModel.supported")
  else (m, .error "AssertionError: pm_model in PMModel.supported")

/-- Embedding of `PSJSModel.update_by_x_js` (source lines 57-59): unpack the
new vector, then have the collaborator rebuild its rates from the new
point-mutation slice. If unpacking raises, the collaborator is not touched. -/
def PSJSModel.update_by_x_js (m : PSJSModel) (new_x_js : List ℝ) :
    PSJSModel × Except String Unit :=
  match m.unpack_x_js new_x_js with
  | (m', Except.error e) => (m', .error e)
  | (m', Except.ok _) =>
    ({ m' with PMModel := m'.PMModel.update_by_x_pm m'.x_pm }, .ok ())

/-- Embedding of `PSJSModel.divide_force` (source lines 62-91): partition the
stored force map (an insertion-ordered dict, embedded as an association
list) by index offset, and normalize empty partitions to `none`. -/
def PSJSModel.divide_force (m : PSJSModel) :
    Except String (Option (List (Nat × ℝ)) × Option (List (Nat × ℝ))) :=
  match m.force with
  | none => .ok (none, none)
  | some force =>
    if m.pm_model ∈ PMModel.supported then
      if m.IGC_pm ∈ PSJSModel.supported then
        match (if m.pm_model = "HKY" then some 4 else none) with
        | none => .error "The point mutation model is not supported."
        | some num_x_pm =>
          match (if m.IGC_pm = "One rate" then some 2 else none) with
          | none => .error "The IGC parameterization has not been implemented."
          | some _num_x_IGC =>
            let pm_force := force.filter (fun kv => decide (kv.1 < num_x_pm))
            let IGC_force := (force.filter (fun kv => ! decide (kv.1 < num_x_pm))).map
              (fun kv => (kv.1 - num_x_pm, kv.2))
            .ok ((if pm_force.isEmpty then none else some pm_force),
                 (if IGC_force.isEmpty then none else some IGC_force))
      else .error "AssertionError: IGC_pm in PSJSModel.supported"
    else .error "AssertionError: pm_model in PMModel.supported"

/-- Embedding of `PSJSModel.init_models` (source lines 93-104), the body of
object construction: unpack the stored vector, build the state-space shape
(`[4 for i in range(n_js * 2)]` for HKY), partition the force map,
construct the collaborator from the point-mutation slice, store the IGC
force sub-map, assert the shape is homogeneous (`len(set(shape)) == 1`),
and re-apply the full vector through the update path. -/
def PSJSModel.init_models (m : PSJSModel) : PSJSModel × Except String Unit :=
  match m.unpack_x_js m.x_js with
  | (m1, Except.error e) => (m1, .error e)
  | (m1, Except.ok _) =>
    if m1.pm_model = "HKY" then
      let m2 := { m1 with state_space_shape := List.replicate (m1.n_js * 2) 4 }
      match m2.divide_force with
      | Except.error e => (m2, .error e)
      | Except.ok (_pm_force, IGC_force) =>
        let m3 := { m2 with PMModel := { build := m2.PMModel.build, x_pm := m2.x_pm },
                            IGC_force := IGC_force }
        if m3.state_space_shape.dedup.length = 1 then
          m3.update_by_x_js m3.x_js
        else (m3, .error "AssertionError: len(set(state_space_shape)) == 1")
    else (m1, .error "The point mutation model has not been implemented.")

/-- The body of `cal_IGC_transition_rate` after its leading compatibility
assert (source lines 138-177): recompute the differing positions, derive
the two tract rates from the IGC slice, pick the mutation and IGC rate
contributions according to the number of differing positions, and return
either the total rate or the IGC-attributable proportion. The `match` on
`x_IGC` is the tuple unpacking `IGC_init, IGC_p = np.exp(self.x_IGC)`. -/
noncomputable def PSJSModel.cal_IGC_body (m : PSJSModel) (transition : JState × JState)
    (n : Nat) (proportion : Bool) : Except String ℝ :=
  let state_from := transition.1
  let state_to := transition.2
  let pos_list := diff_positions state_from state_to
  if m.IGC_pm = "One rate" then
    match m.x_IGC with
    | [x0, x1] =>
      let IGC_init := Real.exp x0
      let IGC_p := Real.exp x1
      let not_n := IGC_0_not_n IGC_init IGC_p n
      let and_n := IGC_0_and_n IGC_init IGC_p n
      let qs : Except String (ℝ × ℝ) :=
        if pos_list.length = 1 then
          let pos := pos_list.getD 0 0
          match get_other_pos pos with
          | Except.error e => .error e
          | Except.ok (same_paralog_other_pos, other_paralog_same_pos, other_paralog_other_pos) =>
            .ok (m.PMModel.Q_mut (state_from.getD pos 0) (state_to.getD pos 0),
              if state_to.getD pos 0 = state_from.getD other_paralog_same_pos 0 ∧
                 state_from.getD same_paralog_other_pos 0 =
                   state_from.getD other_paralog_other_pos 0 then
                not_n + and_n
              else if state_to.getD pos 0 = state_from.getD other_paralog_same_pos 0 ∧
                 ¬ state_from.getD same_paralog_other_pos 0 =
                     state_from.getD other_paralog_other_pos 0 then
                not_n
              else 0)
        else if pos_list.length = 2 then
          if (pos_list = [0, 1] ∧ state_to.getD 0 0 = state_from.getD 2 0 ∧
                state_to.getD 1 0 = state_from.getD 3 0) ∨
             (pos_list = [2, 3] ∧ state_to.getD 2 0 = state_from.getD 0 0 ∧
                state_to.getD 3 0 = state_from.getD 1 0) then
            .ok (0, and_n)
          else .error "Transition not compatible!"
        else .error "Transition not compatible! 2"
      match qs with
      | Except.error e => .error e
      | Except.ok (q_ij, q_IGC) =>
        if proportion then .ok (q_IGC / (q_ij + q_IGC)) else .ok (q_ij + q_IGC)
    | _ => .error "ValueError: cannot unpack x_IGC into IGC_init, IGC_p"
  else .error "Cal_IGC_transition_rate not implemented yet."

/-- Embedding of `PSJSModel.cal_IGC_transition_rate` (source lines 132-177):
the method first asserts `is_transition_compatible(transition)` (line 136),
then runs the rate computation `cal_IGC_body`. -/
noncomputable def PSJSModel.cal_IGC_transition_rate (m : PSJSModel)
    (transition : JState × JState) (n : Nat) (proportion : Bool) : Except String ℝ :=
  match m.is_transition_compatible transition with
  | Except.error e => .error e
  | Except.ok false => .error "AssertionError: is_transition_compatible(transition)"
  | Except.ok true => m.cal_IGC_body transition n proportion

/-- The state tuples enumerated by `itertools.product(range(alphabet), repeat = k)`,
in the same lexicographic order (leftmost coordinate varying slowest). -/
def product_states (alphabet : Nat) : Nat → List JState
  | 0 => [[]]
  | k + 1 => (List.range alphabet).flatMap
      (fun i => (product_states alphabet k).map (fun rest => i :: rest))

/-- The candidate pairs enumerated by the two nested loops of
`get_IGC_transition_rates_BF` (source lines 181-182): the cartesian product
of `itertools.product(range(state_space_shape[0]), repeat = n_js * 2)` with
itself, outer loop over `state_from`. -/
def PSJSModel.all_state_pairs (m : PSJSModel) : List (JState × JState) :=
  (product_states (m.state_space_shape.getD 0 0) (m.n_js * 2)).flatMap
    (fun state_from =>
      (product_states (m.state_space_shape.getD 0 0) (m.n_js * 2)).map
        (fun state_to => (state_from, state_to)))

/-- The loop body of `get_IGC_transition_rates_BF` (source lines 181-184)
over an explicit list of candidate pairs: keep the compatible ones paired
with their transition rate, propagating any exception raised mid-iteration. -/
noncomputable def PSJSModel.rates_BF_from (m : PSJSModel) (n : Nat) (proportion : Bool) :
    List (JState × JState) → Except String (List (JState × JState × ℝ))
  | [] => .ok []
  | p :: rest =>
    match m.is_transition_compatible p with
    | Except.error e => .error e
    | Except.ok b =>
      if b then
        match m.cal_IGC_transition_rate p n proportion with
        | Except.error e => .error e
        | Except.ok r =>
          match m.rates_BF_from n proportion rest with
          | Except.error e => .error e
          | Except.ok ts => .ok ((p.1, p.2, r) :: ts)
      else m.rates_BF_from n proportion rest

/-- Embedding of the generator `PSJSModel.get_IGC_transition_rates_BF`
(source lines 179-184), fully elaborated into the list of yielded triples. -/
noncomputable def PSJSModel.get_IGC_transition_rates_BF (m : PSJSModel) (n : Nat)
    (proportion : Bool) : Except String (List (JState × JState × ℝ)) :=
  m.rates_BF_from n proportion m.all_state_pairs

/-- The record returned by `get_process_definition`: the Python dict with
keys `row_states`, `column_states` and either `weights` (proportion) or
`transition_rates`; the name of the third key is recorded in `third_key`. -/
structure ProcessDefinition where
  row_states : List JState
  column_states : List JState
  third_key : String
  third : List ℝ

/-- Embedding of `PSJSModel.get_process_definition` (source lines 186-205):
drain the brute-force generator into three parallel lists and package them,
choosing the third key name by the `proportion` flag. -/
noncomputable def PSJSModel.get_process_definition (m : PSJSModel) (n : Nat)
    (proportion : Bool) : Except String ProcessDefinition :=
  match m.get_IGC_transition_rates_BF n proportion with
  | Except.error e => .error e
  | Except.ok ts =>
    .ok { row_states := ts.map (fun t => t.1),
          column_states := ts.map (fun t => t.2.1),
          third_key := if proportion then "weights" else "transition_rates",
          third := ts.map (fun t => t.2.2) }

/-- The boolean reading of the compatibility predicate used by the spec-side
assembler: the value the predicate returns on a normal return, `false` if
the predicate raises. -/
def compatB (m : PSJSModel) (p : JState × JState) : Bool :=
  match m.is_transition_compatible p with
  | Except.ok b => b
  | Except.error _ => false

/-- Follows the spec (section 4.6, claim C4): the full cartesian product of
the 4-coordinate state space with itself, in enumeration order, filtered by
the Transition Compatibility Predicate. -/
def compatible_pairs_spec (m : PSJSModel) : List (JState × JState) :=
  ((product_states 4 4).flatMap fun state_from =>
    (product_states 4 4).map fun state_to => (state_from, state_to)).filter
    (fun p => compatB m p)

/-- A concrete well-formed model instance for the witnesses: HKY point
mutation model, One rate IGC parameterization, parameter vector of length
6 whose IGC log-parameters are `[0, -1]` (so the tract decay parameter is
`exp (-1) < 1`), and a constant positive collaborator rate table. -/
noncomputable def testModel : PSJSModel :=
  { n_js := 2
    x_js := [0, 0, 0, 0, 0, -1]
    x_pm := [0, 0, 0, 0]
    x_IGC := [0, -1]
    IGC_force := none
    force := some [(1, 0.5), (5, 0.3)]
    IGC_pm := "One rate"
    pm_model := "HKY"
    n_orlg := 3
    PMModel := { build := fun _ _ _ => 2, x_pm := [0, 0, 0, 0] }
    state_space_shape := [4, 4, 4, 4] }

/-- A model instance whose IGC log-parameters are `[0, 0]`, so the tract
decay parameter is `IGC_p = exp 0 = 1`: the rate of tracts covering both
sites is then zero. -/
noncomputable def oneModel : PSJSModel :=
  { n_js := 2
    x_js := [0, 0, 0, 0, 0, 0]
    x_pm := [0, 0, 0, 0]
    x_IGC := [0, 0]
    IGC_force := none
    force := none
    IGC_pm := "One rate"
    pm_model := "HKY"
    n_orlg := 3
    PMModel := { build := fun _ _ _ => 2, x_pm := [0, 0, 0, 0] }
    state_space_shape := [4, 4, 4, 4] }

/-- A model instance whose IGC log-parameters are `[0, log 3]`, so the
tract decay parameter is `IGC_p = 3 > 1`, a value the parameter unpacking
never rejects. -/
noncomputable def decayThreeModel : PSJSModel :=
  { n_js := 2
    x_js := [0, 0, 0, 0, 0, Real.log 3]
    x_pm := [0, 0, 0, 0]
    x_IGC := [0, Real.log 3]
    IGC_force := none
    force := none
    IGC_pm := "One rate"
    pm_model := "HKY"
    n_orlg := 3
    PMModel := { build := fun _ _ _ => 2, x_pm := [0, 0, 0, 0] }
    state_space_shape := [4, 4, 4, 4] }

/-- A model instance constructed with `n_js = 3` (three joint paralog
states), before `init_models` has run. -/
noncomputable def threeParalogModel : PSJSModel :=
  { n_js := 3
    x_js := [0, 0, 0, 0, 0, 0]
    x_pm := [0, 0, 0, 0]
    x_IGC := [0, 0]
    IGC_force := none
    force := none
    IGC_pm := "One rate"
    pm_model := "HKY"
    n_orlg := 3
    PMModel := { build := fun _ _ _ => 2, x_pm := [0, 0, 0, 0] }
    state_space_shape := [] }

/-! ### Basic lemmas about the differing-position list -/

lemma diff_positions_four (a b c d e f g h : Nat) :
    diff_positions [a, b, c, d] [e, f, g, h] =
      (if a = e then [] else [0]) ++ (if b = f then [] else [1]) ++
      (if c = g then [] else [2]) ++ (if d = h then [] else [3]) := by
  show (List.range 4).filter _ = _
  rw [show List.range 4 = [0, 1, 2, 3] from rfl]
  by_cases h1 : a = e <;> by_cases h2 : b = f <;> by_cases h3 : c = g <;>
    by_cases h4 : d = h <;>
    simp [List.filter, List.getD, h1, h2, h3, h4]

lemma diff_positions_self (s : JState) : diff_positions s s = [] := by
  simp [diff_positions]

lemma eq_of_diff_positions_nil (sf st : JState) (hlen : sf.length = st.length)
    (h : diff_positions sf st = []) : sf = st := by
  have hall := List.filter_eq_nil_iff.mp h
  apply List.ext_getElem hlen
  intro i hi hi'
  have := hall i (List.mem_range.mpr hi)
  simp only [decide_eq_true_eq, not_not] at this
  rw [← List.getD_eq_getElem sf 0 hi, ← List.getD_eq_getElem st 0 hi']
  exact this

lemma diff_positions_subset_range (sf st : JState) :
    ∀ i ∈ diff_positions sf st, i < sf.length := by
  intro i hi
  have := List.mem_filter.mp hi
  exact List.mem_range.mp this.1

/-! ### Evaluation and elimination lemmas for the compatibility predicate -/

lemma is_transition_compatible_eval (m : PSJSModel) (h4 : m.state_space_shape.length = 4)
    (sf st : JState) (hsf : sf.length = 4) (hst : st.length = 4) :
    m.is_transition_compatible (sf, st) =
      (if sf = st then .ok false
       else if (diff_positions sf st).length > 2 then .ok false
       else if (diff_positions sf st).length = 2 then
         if (diff_positions sf st = [0, 1] ∧ st.getD 0 0 = sf.getD 2 0 ∧
               st.getD 1 0 = sf.getD 3 0) ∨
            (diff_positions sf st = [2, 3] ∧ st.getD 2 0 = sf.getD 0 0 ∧
               st.getD 3 0 = sf.getD 1 0) then .ok true
         else .ok false
       else if (diff_positions sf st).length = 1 then .ok true
       else .error "Check is_transition_compatible function in PSJSModel class.") := by
  simp only [PSJSModel.is_transition_compatible, h4, hsf, hst, and_self, if_true]

lemma compat_ok_true_cases (m : PSJSModel) (sf st : JState)
    (hc : m.is_transition_compatible (sf, st) = .ok true) :
    m.state_space_shape.length = 4 ∧ sf.length = 4 ∧ st.length = 4 ∧ ¬ sf = st ∧
    ((diff_positions sf st).length = 1 ∨
     ((diff_positions sf st).length = 2 ∧
      ((diff_positions sf st = [0, 1] ∧ st.getD 0 0 = sf.getD 2 0 ∧
          st.getD 1 0 = sf.getD 3 0) ∨
       (diff_positions sf st = [2, 3] ∧ st.getD 2 0 = sf.getD 0 0 ∧
          st.getD 3 0 = sf.getD 1 0)))) := by
  simp only [PSJSModel.is_transition_compatible] at hc
  split_ifs at hc with h1 h2 h3 h4 h5 h6 h7 <;> simp_all

/-- C2: for every pair of 4-coordinate states, `is_transition_compatible`
returns `False` on equal states, `True` when exactly one coordinate
differs, `False` when more than two coordinates differ, and when exactly
two coordinates differ returns `True` exactly when the differing pair is
positions 0,1 with `state_to[0] = state_from[2]` and
`state_to[1] = state_from[3]`, or the differing pair is positions 2,3 with
`state_to[2] = state_from[0]` and `state_to[3] = state_from[1]`. -/
theorem is_transition_compatible_characterization (m : PSJSModel)
    (h4 : m.state_space_shape.length = 4) (a b c d e f g h : Nat) :
    (([a, b, c, d] : JState) = [e, f, g, h] →
       m.is_transition_compatible ([a, b, c, d], [e, f, g, h]) = .ok false) ∧
    ((diff_positions [a, b, c, d] [e, f, g, h]).length = 1 →
       m.is_transition_compatible ([a, b, c, d], [e, f, g, h]) = .ok true) ∧
    ((diff_positions [a, b, c, d] [e, f, g, h]).length > 2 →
       m.is_transition_compatible ([a, b, c, d], [e, f, g, h]) = .ok false) ∧
    ((diff_positions [a, b, c, d] [e, f, g, h]).length = 2 →
       (m.is_transition_compatible ([a, b, c, d], [e, f, g, h]) = .ok true ↔
         ((a ≠ e ∧ b ≠ f ∧ c = g ∧ d = h) ∧ e = c ∧ f = d) ∨
         ((a = e ∧ b = f ∧ c ≠ g ∧ d ≠ h) ∧ g = a ∧ h = b))) := by
  have hce := is_transition_compatible_eval m h4 [a, b, c, d] [e, f, g, h] rfl rfl
  have hdp := diff_positions_four a b c d e f g h
  rw [hce]
  by_cases h1 : a = e <;> by_cases h2 : b = f <;> by_cases h3 : c = g <;>
    by_cases h5 : d = h <;> simp_all

/-! ### Evaluation lemmas for the rate calculator -/

lemma cal_IGC_transition_rate_of_compat (m : PSJSModel) (t : JState × JState)
    (n : Nat) (prop : Bool) (hc : m.is_transition_compatible t = .ok true) :
    m.cal_IGC_transition_rate t n prop = m.cal_IGC_body t n prop := by
  simp [PSJSModel.cal_IGC_transition_rate, hc]

lemma cal_IGC_body_one_pos (m : PSJSModel) (u v : ℝ) (hIGC : m.IGC_pm = "One rate")
    (hx : m.x_IGC = [u, v]) (sf st : JState) (pos spp ops opp : Nat) (n : Nat) (prop : Bool)
    (hdp : diff_positions sf st = [pos])
    (hop : get_other_pos pos = .ok (spp, ops, opp)) :
    m.cal_IGC_body (sf, st) n prop =
      (let q_ij := m.PMModel.Q_mut (sf.getD pos 0) (st.getD pos 0)
       let q_IGC :=
         if st.getD pos 0 = sf.getD ops 0 ∧ sf.getD spp 0 = sf.getD opp 0 then
           IGC_0_not_n (Real.exp u) (Real.exp v) n + IGC_0_and_n (Real.exp u) (Real.exp v) n
         else if st.getD pos 0 = sf.getD ops 0 ∧ ¬ sf.getD spp 0 = sf.getD opp 0 then
           IGC_0_not_n (Real.exp u) (Real.exp v) n
         else 0
       if prop then Except.ok (q_IGC / (q_ij + q_IGC)) else Except.ok (q_ij + q_IGC)) := by
  simp only [PSJSModel.cal_IGC_body, hIGC, hx, hdp, hop, if_true, List.length_cons,
    List.length_nil, List.getD_cons_zero]

lemma cal_IGC_body_two_pos (m : PSJSModel) (u v : ℝ) (hIGC : m.IGC_pm = "One rate")
    (hx : m.x_IGC = [u, v]) (sf st : JState) (n : Nat) (prop : Bool)
    (hlen : (diff_positions sf st).length = 2)
    (hpat : (diff_positions sf st = [0, 1] ∧ st.getD 0 0 = sf.getD 2 0 ∧
               st.getD 1 0 = sf.getD 3 0) ∨
            (diff_positions sf st = [2, 3] ∧ st.getD 2 0 = sf.getD 0 0 ∧
               st.getD 3 0 = sf.getD 1 0)) :
    m.cal_IGC_body (sf, st) n prop =
      (if prop then
         Except.ok (IGC_0_and_n (Real.exp u) (Real.exp v) n /
           (0 + IGC_0_and_n (Real.exp u) (Real.exp v) n))
       else Except.ok (0 + IGC_0_and_n (Real.exp u) (Real.exp v) n)) := by
  simp only [PSJSModel.cal_IGC_body, hIGC, hx, hlen, if_pos hpat]
  norm_num

lemma get_other_pos_ok_of_lt (pos : Nat) (h : pos < 4) :
    ∃ spp ops opp, get_other_pos pos = .ok (spp, ops, opp) := by
  interval_cases pos
  · exact ⟨1, 2, 3, rfl⟩
  · exact ⟨0, 3, 2, rfl⟩
  · exact ⟨3, 0, 1, rfl⟩
  · exact ⟨2, 1, 0, rfl⟩

lemma cal_IGC_ok_of_compatible (m : PSJSModel) (u v : ℝ) (hIGC : m.IGC_pm = "One rate")
    (hx : m.x_IGC = [u, v]) (sf st : JState) (n : Nat) (prop : Bool)
    (hc : m.is_transition_compatible (sf, st) = .ok true) :
    ∃ r, m.cal_IGC_transition_rate (sf, st) n prop = .ok r := by
  obtain ⟨h4, hsf, hst, hne, hcase⟩ := compat_ok_true_cases m sf st hc
  rw [cal_IGC_transition_rate_of_compat m (sf, st) n prop hc]
  rcases hcase with h1 | ⟨h2len, h2pat⟩
  · obtain ⟨pos, hpos⟩ := List.length_eq_one.mp h1
    have hmem : pos ∈ diff_positions sf st := by
      rw [hpos]; exact List.mem_singleton_self pos
    have hlt : pos < 4 := by
      have := diff_positions_subset_range sf st pos hmem; omega
    obtain ⟨spp, ops, opp, hop⟩ := get_other_pos_ok_of_lt pos hlt
    rw [cal_IGC_body_one_pos m u v hIGC hx sf st pos spp ops opp n prop hpos hop]
    dsimp only
    split_ifs <;> exact ⟨_, rfl⟩
  · rw [cal_IGC_body_two_pos m u v hIGC hx sf st n prop h2len h2pat]
    split_ifs <;> exact ⟨_, rfl⟩

/-- C8: under the precondition that the transition satisfies
`is_transition_compatible` (which `cal_IGC_transition_rate` asserts on
entry), and with the One rate IGC parameterization in place with its two
parameters, the failure branches inside the rate calculator (the
`Transition not compatible!` exit for a two-coordinate pattern the
predicate should have excluded, and the exit for more than two differing
coordinates) are unreachable: every compatible transition reaches a normal
return. -/
theorem compatible_transition_reaches_normal_return (m : PSJSModel) (u v : ℝ)
    (hIGC : m.IGC_pm = "One rate") (hx : m.x_IGC = [u, v])
    (sf st : JState) (n : Nat) (prop : Bool)
    (hc : m.is_transition_compatible (sf, st) = .ok true) :
    ∃ r, m.cal_IGC_transition_rate (sf, st) n prop = .ok r :=
  cal_IGC_ok_of_compatible m u v hIGC hx sf st n prop hc

/-- Witness for C8: the compatible single-coordinate transition
`((0,2,2,3), (0,2,2,1))` of the concrete test model reaches a normal
return at separation `n = 50`. -/
theorem compatible_transition_reaches_normal_return_witness :
    testModel.is_transition_compatible ([0, 2, 2, 3], [0, 2, 2, 1]) = .ok true ∧
    ∃ r, testModel.cal_IGC_transition_rate ([0, 2, 2, 3], [0, 2, 2, 1]) 50 false = .ok r :=
  ⟨rfl, compatible_transition_reaches_normal_return testModel 0 (-1) rfl rfl
    [0, 2, 2, 3] [0, 2, 2, 1] 50 false rfl⟩

/-- C1: for every compatible transition in which exactly one coordinate
`pos` differs, `cal_IGC_transition_rate` with `proportion = False` returns
`q_mut + igc_contribution`, where `q_mut` is the collaborator rate
`Q_mut[state_from[pos], state_to[pos]]`; with the adjacency mapping
`0 -> (1,2,3)`, `1 -> (0,3,2)`, `2 -> (3,0,1)`, `3 -> (2,1,0)` for
`(same_paralog_other_site, other_paralog_same_site, other_paralog_other_site)`,
the IGC contribution is `IGC_0_not_n + IGC_0_and_n` (tract excludes plus
tract includes) when the destination value equals `state_from` at the other
paralog same site and the source paralog is homogeneous across its two
sites, `IGC_0_not_n` alone when the destination matches but the source
paralog sites differ, and `0` otherwise; in particular the contribution is
always one of those three values. -/
theorem one_pos_rate_decomposition (m : PSJSModel) (u v : ℝ)
    (hIGC : m.IGC_pm = "One rate") (hx : m.x_IGC = [u, v])
    (sf st : JState) (pos : Nat) (n : Nat)
    (hc : m.is_transition_compatible (sf, st) = .ok true)
    (hdp : diff_positions sf st = [pos]) :
    ∃ spp ops opp,
      get_other_pos pos = .ok (spp, ops, opp) ∧
      (pos = 0 → (spp, ops, opp) = (1, 2, 3)) ∧
      (pos = 1 → (spp, ops, opp) = (0, 3, 2)) ∧
      (pos = 2 → (spp, ops, opp) = (3, 0, 1)) ∧
      (pos = 3 → (spp, ops, opp) = (2, 1, 0)) ∧
      ∃ igc,
        m.cal_IGC_transition_rate (sf, st) n false =
          .ok (m.PMModel.Q_mut (sf.getD pos 0) (st.getD pos 0) + igc) ∧
        igc = (if st.getD pos 0 = sf.getD ops 0 ∧ sf.getD spp 0 = sf.getD opp 0 then
                 IGC_0_not_n (Real.exp u) (Real.exp v) n +
                   IGC_0_and_n (Real.exp u) (Real.exp v) n
               else if st.getD pos 0 = sf.getD ops 0 ∧
                   ¬ sf.getD spp 0 = sf.getD opp 0 then
                 IGC_0_not_n (Real.exp u) (Real.exp v) n
               else 0) ∧
        (igc = 0 ∨ igc = IGC_0_not_n (Real.exp u) (Real.exp v) n ∨
         igc = IGC_0_not_n (Real.exp u) (Real.exp v) n +
           IGC_0_and_n (Real.exp u) (Real.exp v) n) := by
  obtain ⟨h4, hsf, hst, hne, _⟩ := compat_ok_true_cases m sf st hc
  have hmem : pos ∈ diff_positions sf st := by
    rw [hdp]; exact List.mem_singleton_self pos
  have hlt : pos < 4 := by
    have := diff_positions_subset_range sf st pos hmem; omega
  rw [cal_IGC_transition_rate_of_compat m (sf, st) n false hc]
  interval_cases pos <;>
  · refine ⟨_, _, _, rfl, by simp, by simp, by simp, by simp, ?_⟩
    rw [cal_IGC_body_one_pos m u v hIGC hx sf st _ _ _ _ n false hdp rfl]
    refine ⟨_, by simp, rfl, ?_⟩
    split_ifs <;> simp

/-- Witness for C1: the transition `((0,2,2,3), (0,2,2,1))` of the concrete
test model differs at exactly the coordinate 3, and the decomposition holds
at separation `n = 50`. -/
theorem one_pos_rate_decomposition_witness :
    testModel.is_transition_compatible ([0, 2, 2, 3], [0, 2, 2, 1]) = .ok true ∧
    diff_positions [0, 2, 2, 3] [0, 2, 2, 1] = [3] ∧
    (∃ spp ops opp,
      get_other_pos 3 = .ok (spp, ops, opp) ∧
      ((3 : Nat) = 0 → (spp, ops, opp) = (1, 2, 3)) ∧
      ((3 : Nat) = 1 → (spp, ops, opp) = (0, 3, 2)) ∧
      ((3 : Nat) = 2 → (spp, ops, opp) = (3, 0, 1)) ∧
      ((3 : Nat) = 3 → (spp, ops, opp) = (2, 1, 0)) ∧
      ∃ igc,
        testModel.cal_IGC_transition_rate ([0, 2, 2, 3], [0, 2, 2, 1]) 50 false =
          .ok (testModel.PMModel.Q_mut (([0, 2, 2, 3] : JState).getD 3 0)
                 (([0, 2, 2, 1] : JState).getD 3 0) + igc) ∧
        igc = (if ([0, 2, 2, 1] : JState).getD 3 0 = ([0, 2, 2, 3] : JState).getD ops 0 ∧
                 ([0, 2, 2, 3] : JState).getD spp 0 = ([0, 2, 2, 3] : JState).getD opp 0 then
                 IGC_0_not_n (Real.exp 0) (Real.exp (-1)) 50 +
                   IGC_0_and_n (Real.exp 0) (Real.exp (-1)) 50
               else if ([0, 2, 2, 1] : JState).getD 3 0 =
                     ([0, 2, 2, 3] : JState).getD ops 0 ∧
                   ¬ ([0, 2, 2, 3] : JState).getD spp 0 =
                       ([0, 2, 2, 3] : JState).getD opp 0 then
                 IGC_0_not_n (Real.exp 0) (Real.exp (-1)) 50
               else 0) ∧
        (igc = 0 ∨ igc = IGC_0_not_n (Real.exp 0) (Real.exp (-1)) 50 ∨
         igc = IGC_0_not_n (Real.exp 0) (Real.exp (-1)) 50 +
           IGC_0_and_n (Real.exp 0) (Real.exp (-1)) 50)) :=
  ⟨rfl, by decide,
    one_pos_rate_decomposition testModel 0 (-1) rfl rfl [0, 2, 2, 3] [0, 2, 2, 1] 3 50
      rfl (by decide)⟩

/-- C3 (amended): for every compatible transition in which exactly two
coordinates differ, `cal_IGC_transition_rate` with `proportion = False`
returns exactly `IGC_0_and_n` (the rate of tracts covering both sites; the
point-mutation term contributes `0`), and with `proportion = True` it
returns exactly `1.0` provided the tract decay parameter `IGC_p = exp v`
is not `1` (when `IGC_p = 1` the rate `IGC_0_and_n` is `0` and the
proportion is the indeterminate quotient `0 / 0`, not `1.0`; see the
counterexample). -/
theorem two_pos_rate_characterization (m : PSJSModel) (u v : ℝ)
    (hIGC : m.IGC_pm = "One rate") (hx : m.x_IGC = [u, v])
    (sf st : JState) (n : Nat)
    (hc : m.is_transition_compatible (sf, st) = .ok true)
    (hlen : (diff_positions sf st).length = 2) :
    m.cal_IGC_transition_rate (sf, st) n false =
      .ok (IGC_0_and_n (Real.exp u) (Real.exp v) n) ∧
    (Real.exp v ≠ 1 →
      m.cal_IGC_transition_rate (sf, st) n true = .ok 1) := by
  obtain ⟨h4, hsf, hst, hne, hcase⟩ := compat_ok_true_cases m sf st hc
  rcases hcase with h1 | ⟨h2len, h2pat⟩
  · omega
  constructor
  · rw [cal_IGC_transition_rate_of_compat m (sf, st) n false hc,
      cal_IGC_body_two_pos m u v hIGC hx sf st n false hlen h2pat]
    norm_num
  · intro hp
    rw [cal_IGC_transition_rate_of_compat m (sf, st) n true hc,
      cal_IGC_body_two_pos m u v hIGC hx sf st n true hlen h2pat]
    have hand : IGC_0_and_n (Real.exp u) (Real.exp v) n ≠ 0 := by
      unfold IGC_0_and_n
      exact mul_ne_zero (div_ne_zero (Real.exp_ne_zero u) (Real.exp_ne_zero v))
        (pow_ne_zero n (sub_ne_zero_of_ne (Ne.symm hp)))
    rw [if_pos rfl, zero_add, div_self hand]

/-- Counterexample for C3: with IGC log-parameters `[0, 0]` the decay
parameter is `IGC_p = 1`, the two-site tract rate `IGC_0_and_n` is `0`,
and the proportion for the compatible two-coordinate transition
`((0,0,1,1), (1,1,1,1))` at `n = 1` is the quotient `0 / 0`, which is `0`
here (and NaN in the floating-point implementation) — not `1.0` as the
claim states. -/
theorem two_pos_proportion_counterexample :
    oneModel.is_transition_compatible ([0, 0, 1, 1], [1, 1, 1, 1]) = .ok true ∧
    oneModel.cal_IGC_transition_rate ([0, 0, 1, 1], [1, 1, 1, 1]) 1 true = .ok 0 ∧
    (0 : ℝ) ≠ 1 := by
  refine ⟨rfl, ?_, by norm_num⟩
  rw [cal_IGC_transition_rate_of_compat oneModel ([0, 0, 1, 1], [1, 1, 1, 1]) 1 true rfl,
    cal_IGC_body_two_pos oneModel 0 0 rfl rfl [0, 0, 1, 1] [1, 1, 1, 1] 1 true
      (by decide) (by decide)]
  norm_num [IGC_0_and_n, Real.exp_zero]

/-- Witness for the amended C3: the compatible two-coordinate transition
`((0,0,1,1), (1,1,1,1))` of the concrete test model (whose decay parameter
`exp (-1)` is not `1`) has rate exactly `IGC_0_and_n` and proportion
exactly `1`. -/
theorem two_pos_rate_characterization_witness :
    testModel.is_transition_compatible ([0, 0, 1, 1], [1, 1, 1, 1]) = .ok true ∧
    (diff_positions [0, 0, 1, 1] [1, 1, 1, 1]).length = 2 ∧
    testModel.cal_IGC_transition_rate ([0, 0, 1, 1], [1, 1, 1, 1]) 7 false =
      .ok (IGC_0_and_n (Real.exp 0) (Real.exp (-1)) 7) ∧
    testModel.cal_IGC_transition_rate ([0, 0, 1, 1], [1, 1, 1, 1]) 7 true = .ok 1 := by
  have h := two_pos_rate_characterization testModel 0 (-1) rfl rfl
    [0, 0, 1, 1] [1, 1, 1, 1] 7 rfl (by decide)
  refine ⟨rfl, by decide, h.1, h.2 ?_⟩
  have h1 : Real.exp (-1) < 1 := by
    have := Real.exp_lt_exp.mpr (show (-1 : ℝ) < 0 by norm_num)
    rw [Real.exp_zero] at this
    exact this
  exact ne_of_lt h1

lemma div_add_self_mem_unit (a b : ℝ) (ha : 0 ≤ a) (hb : 0 ≤ b) :
    0 ≤ a / (b + a) ∧ a / (b + a) ≤ 1 := by
  by_cases hd : b + a = 0
  · rw [hd, div_zero]
    norm_num
  · have hdpos : 0 < b + a := lt_of_le_of_ne (add_nonneg hb ha) (Ne.symm hd)
    exact ⟨div_nonneg ha (le_of_lt hdpos), (div_le_one hdpos).mpr (by linarith)⟩

/-- C6 (amended): for every compatible transition and separation `n ≥ 1`,
provided the tract decay parameter `IGC_p = exp v` is at most `1` and the
collaborator rate table is nonnegative, the value returned with
`proportion = True` lies in the closed interval `[0, 1]` (the quotient
`0 / 0` that arises when both the mutation rate and the IGC contribution
are zero is read as `0` here). Without the bound `IGC_p ≤ 1` — which the
parameter unpacking never enforces — the claim is false, see the
counterexample. -/
theorem proportion_in_unit_interval (m : PSJSModel) (u v : ℝ)
    (hIGC : m.IGC_pm = "One rate") (hx : m.x_IGC = [u, v])
    (sf st : JState) (n : Nat)
    (hc : m.is_transition_compatible (sf, st) = .ok true)
    (hn : 1 ≤ n) (hp : Real.exp v ≤ 1)
    (hQ : ∀ i j, 0 ≤ m.PMModel.Q_mut i j) :
    ∃ r, m.cal_IGC_transition_rate (sf, st) n true = .ok r ∧ 0 ≤ r ∧ r ≤ 1 := by
  have hp0 : (0 : ℝ) < Real.exp v := Real.exp_pos v
  have hbase0 : 0 ≤ 1 - Real.exp v := by linarith
  have hpow0 : 0 ≤ (1 - Real.exp v) ^ n := pow_nonneg hbase0 n
  have hpow1 : (1 - Real.exp v) ^ n ≤ 1 := pow_le_one₀ hbase0 (by linarith)
  have hI : 0 ≤ Real.exp u / Real.exp v :=
    le_of_lt (div_pos (Real.exp_pos u) hp0)
  have hnot : 0 ≤ IGC_0_not_n (Real.exp u) (Real.exp v) n := by
    unfold IGC_0_not_n
    exact mul_nonneg hI (by linarith)
  have hand : 0 ≤ IGC_0_and_n (Real.exp u) (Real.exp v) n := by
    unfold IGC_0_and_n
    exact mul_nonneg hI hpow0
  obtain ⟨h4, hsf, hst, hne, hcase⟩ := compat_ok_true_cases m sf st hc
  rw [cal_IGC_transition_rate_of_compat m (sf, st) n true hc]
  rcases hcase with h1 | ⟨h2len, h2pat⟩
  · obtain ⟨pos, hpos⟩ := List.length_eq_one.mp h1
    have hmem : pos ∈ diff_positions sf st := by
      rw [hpos]; exact List.mem_singleton_self pos
    have hlt : pos < 4 := by
      have := diff_positions_subset_range sf st pos hmem; omega
    obtain ⟨spp, ops, opp, hop⟩ := get_other_pos_ok_of_lt pos hlt
    rw [cal_IGC_body_one_pos m u v hIGC hx sf st pos spp ops opp n true hpos hop]
    dsimp only
    refine ⟨_, rfl, ?_⟩
    split_ifs
    · exact div_add_self_mem_unit _ _ (add_nonneg hnot hand) (hQ _ _)
    · exact div_add_self_mem_unit _ _ hnot (hQ _ _)
    · exact div_add_self_mem_unit _ _ le_rfl (hQ _ _)
  · rw [cal_IGC_body_two_pos m u v hIGC hx sf st n true h2len h2pat]
    rw [if_pos rfl]
    exact ⟨_, rfl, div_add_self_mem_unit _ _ hand le_rfl⟩

/-- Witness for the amended C6: for the concrete test model (decay
parameter `exp (-1) ≤ 1`, constant collaborator rate `2 ≥ 0`) the
proportion of the compatible transition `((0,2,2,3), (0,2,2,1))` at
separation `n = 50` lies in `[0, 1]`. -/
theorem proportion_in_unit_interval_witness :
    testModel.is_transition_compatible ([0, 2, 2, 3], [0, 2, 2, 1]) = .ok true ∧
    Real.exp (-1) ≤ 1 ∧
    ∃ r, testModel.cal_IGC_transition_rate ([0, 2, 2, 3], [0, 2, 2, 1]) 50 true = .ok r ∧
      0 ≤ r ∧ r ≤ 1 := by
  have hp : Real.exp (-1) ≤ 1 := by
    have := Real.exp_le_exp.mpr (show (-1 : ℝ) ≤ 0 by norm_num)
    rw [Real.exp_zero] at this
    exact this
  exact ⟨rfl, hp,
    proportion_in_unit_interval testModel 0 (-1) rfl rfl [0, 2, 2, 3] [0, 2, 2, 1] 50
      rfl (by norm_num) hp (fun i j => by norm_num [PMModel.Q_mut, testModel])⟩

/-- Counterexample for C6: with IGC log-parameters `[0, log 3]` the decay
parameter is `IGC_p = 3`, the tract rate `IGC_0_not_n` at `n = 2` is
`(1/3) * (1 - (1-3)^2) = -1`, and the proportion of the compatible
single-coordinate transition `((0,1,1,0), (1,1,1,0))` is
`-1 / (2 + -1) = -1`, outside `[0, 1]`. -/
theorem proportion_counterexample :
    decayThreeModel.is_transition_compatible ([0, 1, 1, 0], [1, 1, 1, 0]) = .ok true ∧
    decayThreeModel.cal_IGC_transition_rate ([0, 1, 1, 0], [1, 1, 1, 0]) 2 true =
      .ok (-1) ∧
    ¬ (0 ≤ (-1 : ℝ) ∧ (-1 : ℝ) ≤ 1) := by
  refine ⟨rfl, ?_, by norm_num⟩
  rw [cal_IGC_transition_rate_of_compat decayThreeModel ([0, 1, 1, 0], [1, 1, 1, 0]) 2 true rfl,
    cal_IGC_body_one_pos decayThreeModel 0 (Real.log 3) rfl rfl [0, 1, 1, 0] [1, 1, 1, 0]
      0 1 2 3 2 true (by decide) rfl]
  norm_num [PMModel.Q_mut, decayThreeModel, IGC_0_not_n, IGC_0_and_n, Real.exp_zero,
    Real.exp_log, List.getD]

/-- C5: the parameter partitioner `unpack_x_js` deterministically splits the
combined vector into a point-mutation slice of size 4 (model `HKY`, the
first four entries) and an IGC slice of size 2 (IGC name `One rate`, the
remaining entries); it fails when either submodel name is outside its
supported set or when `4 + 2` does not equal the vector length; on success
the stored slices concatenate back to the stored vector. -/
theorem unpack_x_js_characterization (m : PSJSModel) (x : List ℝ) :
    (m.pm_model = "HKY" → m.IGC_pm = "One rate" → x.length = 6 →
      m.unpack_x_js x =
        ({ m with x_pm := x.take 4, x_IGC := x.drop 4, x_js := x }, .ok ()) ∧
      x.take 4 ++ x.drop 4 = x ∧ (x.take 4).length = 4 ∧ (x.drop 4).length = 2) ∧
    (¬ m.pm_model ∈ PMModel.supported → ∃ e, (m.unpack_x_js x).2 = .error e) ∧
    (¬ m.IGC_pm ∈ PSJSModel.supported → ∃ e, (m.unpack_x_js x).2 = .error e) ∧
    (m.pm_model = "HKY" → m.IGC_pm = "One rate" → ¬ x.length = 6 →
      ∃ e, (m.unpack_x_js x).2 = .error e) := by
  refine ⟨?_, ?_, ?_, ?_⟩
  · intro hpm higc hlen
    refine ⟨?_, List.take_append_drop 4 x, ?_, ?_⟩
    · simp [PSJSModel.unpack_x_js, hpm, higc, PMModel.supported, PSJSModel.supported, hlen]
    · rw [List.length_take]; omega
    · rw [List.length_drop]; omega
  · intro hns
    simp [PSJSModel.unpack_x_js, hns]
  · intro hns
    by_cases hpm : m.pm_model ∈ PMModel.supported
    · simp [PSJSModel.unpack_x_js, hpm, hns]
    · simp [PSJSModel.unpack_x_js, hpm]
  · intro hpm higc hlen
    have hlen' : ¬ (6 = x.length) := fun h => hlen h.symm
    simp [PSJSModel.unpack_x_js, hpm, higc, PMModel.supported, PSJSModel.supported, hlen']

/-- Witness for C5: splitting a concrete length-6 vector with the concrete
test model succeeds with the expected slices, and a vector outside the
supported length fails. -/
theorem unpack_x_js_characterization_witness :
    (testModel.pm_model = "HKY" ∧ testModel.IGC_pm = "One rate" ∧
      ([(1 : ℝ), 2, 3, 4, 5, 6] : List ℝ).length = 6) ∧
    testModel.unpack_x_js [1, 2, 3, 4, 5, 6] =
      ({ testModel with x_pm := [(1 : ℝ), 2, 3, 4, 5, 6].take 4,
                        x_IGC := [(1 : ℝ), 2, 3, 4, 5, 6].drop 4,
                        x_js := [1, 2, 3, 4, 5, 6] }, .ok ()) ∧
    [(1 : ℝ), 2, 3, 4, 5, 6].take 4 ++ [(1 : ℝ), 2, 3, 4, 5, 6].drop 4 =
      [(1 : ℝ), 2, 3, 4, 5, 6] ∧
    ∃ e, (testModel.unpack_x_js [1, 2, 3]).2 = .error e := by
  have h := unpack_x_js_characterization testModel [1, 2, 3, 4, 5, 6]
  have h' := (unpack_x_js_characterization testModel [1, 2, 3]).2.2.2 rfl rfl (by simp)
  have hs := h.1 rfl rfl (by simp)
  exact ⟨⟨rfl, rfl, by simp⟩, hs.1, hs.2.1, h'⟩

/-- C7 (amended): `update_by_x_js` is not atomic on failure. On a
successful update (new vector of length 6 under `HKY` and `One rate`) the
stored vector, both slices and the collaborator state are all replaced
consistently. But when the new vector has the wrong length, the method
fails only after the stored `x_js`, `x_pm` and `x_IGC` have already been
overwritten with the new vector and its slices, while the collaborator
keeps its old rates — a partially-updated state is observable, contrary to
the original claim (see the counterexample). -/
theorem update_by_x_js_characterization (m : PSJSModel) (new : List ℝ)
    (hpm : m.pm_model = "HKY") (higc : m.IGC_pm = "One rate") :
    (new.length = 6 →
      m.update_by_x_js new =
        ({ m with x_js := new, x_pm := new.take 4, x_IGC := new.drop 4,
                  PMModel := m.PMModel.update_by_x_pm (new.take 4) }, .ok ())) ∧
    (¬ new.length = 6 →
      ∃ e, m.update_by_x_js new =
        ({ m with x_js := new, x_pm := new.take 4, x_IGC := new.drop 4 }, .error e)) := by
  constructor
  · intro hlen
    simp [PSJSModel.update_by_x_js, PSJSModel.unpack_x_js, hpm, higc,
      PMModel.supported, PSJSModel.supported, hlen]
  · intro hlen
    have hlen' : ¬ (6 = new.length) := fun h => hlen h.symm
    simp [PSJSModel.update_by_x_js, PSJSModel.unpack_x_js, hpm, higc,
      PMModel.supported, PSJSModel.supported, hlen']

/-- Counterexample for C7: updating the concrete test model (whose stored
vector has length 6) with the length-5 vector `[1,1,1,1,1]` fails, yet the
returned object state stores the new length-5 vector: the stored `x_js` was
not left unchanged by the failed update (while the collaborator was). -/
theorem update_by_x_js_counterexample :
    ∃ m' e, testModel.update_by_x_js [1, 1, 1, 1, 1] = (m', Except.error e) ∧
      m'.x_js.length = 5 ∧ testModel.x_js.length = 6 ∧
      m'.PMModel = testModel.PMModel := by
  refine ⟨_, _, rfl, rfl, rfl, rfl⟩

/-- Witness for the amended C7: a successful length-6 update of the
concrete test model replaces the vector, both slices and the collaborator
state, and a length-5 update fails with the already-overwritten slices. -/
theorem update_by_x_js_characterization_witness :
    (testModel.pm_model = "HKY" ∧ testModel.IGC_pm = "One rate") ∧
    testModel.update_by_x_js [1, 2, 3, 4, 5, 6] =
      ({ testModel with x_js := [1, 2, 3, 4, 5, 6],
                        x_pm := [(1 : ℝ), 2, 3, 4, 5, 6].take 4,
                        x_IGC := [(1 : ℝ), 2, 3, 4, 5, 6].drop 4,
                        PMModel := testModel.PMModel.update_by_x_pm
                          ([(1 : ℝ), 2, 3, 4, 5, 6].take 4) }, .ok ()) ∧
    ∃ e, testModel.update_by_x_js [1, 2, 3] =
      ({ testModel with x_js := [1, 2, 3], x_pm := [(1 : ℝ), 2, 3].take 4,
                        x_IGC := [(1 : ℝ), 2, 3].drop 4 }, .error e) := by
  refine ⟨⟨rfl, rfl⟩, ?_, ?_⟩
  · exact (update_by_x_js_characterization testModel [1, 2, 3, 4, 5, 6] rfl rfl).1 (by simp)
  · exact (update_by_x_js_characterization testModel [1, 2, 3] rfl rfl).2 (by simp)

/-- C9: `divide_force` partitions the force map by index offset. When the
stored force map is absent it returns `(None, None)`; otherwise every key
strictly below the point-mutation slice size 4 goes unchanged into the
point-mutation force map, every key at least 4 goes into the IGC force map
re-indexed as `key - 4`, and a partition that ends up empty is normalized
to absence rather than returned as an empty collection. -/
theorem divide_force_characterization (m : PSJSModel)
    (hpm : m.pm_model = "HKY") (higc : m.IGC_pm = "One rate") :
    (m.force = none → m.divide_force = .ok (none, none)) ∧
    (∀ l, m.force = some l →
      ∃ pmf igcf, m.divide_force = .ok (pmf, igcf) ∧
        (∀ k v, ((k, v) ∈ l ∧ k < 4) ↔ ∃ pl, pmf = some pl ∧ (k, v) ∈ pl) ∧
        (∀ k v, ((k + 4, v) ∈ l) ↔ ∃ il, igcf = some il ∧ (k, v) ∈ il) ∧
        pmf ≠ some [] ∧ igcf ≠ some []) := by
  constructor
  · intro h
    simp [PSJSModel.divide_force, h]
  · intro l hl
    have hdf : m.divide_force = .ok
        ((if (l.filter fun kv => decide (kv.1 < 4)).isEmpty then none
          else some (l.filter fun kv => decide (kv.1 < 4))),
         (if ((l.filter fun kv => ! decide (kv.1 < 4)).map fun kv => (kv.1 - 4, kv.2)).isEmpty
          then none
          else some ((l.filter fun kv => ! decide (kv.1 < 4)).map fun kv => (kv.1 - 4, kv.2)))) := by
      simp [PSJSModel.divide_force, hl, hpm, higc, PMModel.supported, PSJSModel.supported]
    refine ⟨_, _, hdf, ?_, ?_, ?_, ?_⟩
    · intro k v
      constructor
      · rintro ⟨hmem, hk⟩
        have hmf : (k, v) ∈ l.filter fun kv => decide (kv.1 < 4) :=
          List.mem_filter.mpr ⟨hmem, by simpa using hk⟩
        have hne : ¬ (l.filter fun kv => decide (kv.1 < 4)).isEmpty = true := by
          rw [List.isEmpty_iff]
          intro hnil
          rw [hnil] at hmf
          exact absurd hmf (List.not_mem_nil _)
        rw [if_neg hne]
        exact ⟨_, rfl, hmf⟩
      · rintro ⟨pl, hpl, hmem⟩
        by_cases hemp : (l.filter fun kv => decide (kv.1 < 4)).isEmpty = true
        · rw [if_pos hemp] at hpl; cases hpl
        · rw [if_neg hemp] at hpl
          injection hpl with h
          subst h
          have := List.mem_filter.mp hmem
          exact ⟨this.1, by simpa using this.2⟩
    · intro k v
      constructor
      · intro hmem
        have hk4 : ¬ (k + 4 < 4) := by omega
        have hmf : (k + 4, v) ∈ l.filter fun kv => ! decide (kv.1 < 4) :=
          List.mem_filter.mpr ⟨hmem, by simp [hk4]⟩
        have hmapped : (k, v) ∈ (l.filter fun kv => ! decide (kv.1 < 4)).map
            fun kv => (kv.1 - 4, kv.2) := by
          refine List.mem_map.mpr ⟨(k + 4, v), hmf, ?_⟩
          simp
        have hne : ¬ ((l.filter fun kv => ! decide (kv.1 < 4)).map
            fun kv => (kv.1 - 4, kv.2)).isEmpty = true := by
          rw [List.isEmpty_iff]
          intro hnil
          rw [hnil] at hmapped
          exact absurd hmapped (List.not_mem_nil _)
        rw [if_neg hne]
        exact ⟨_, rfl, hmapped⟩
      · rintro ⟨il, hil, hmem⟩
        by_cases hemp : ((l.filter fun kv => ! decide (kv.1 < 4)).map
            fun kv => (kv.1 - 4, kv.2)).isEmpty = true
        · rw [if_pos hemp] at hil; cases hil
        · rw [if_neg hemp] at hil
          injection hil with h
          subst h
          obtain ⟨⟨k0, v0⟩, hk0mem, hk0eq⟩ := List.mem_map.mp hmem
          obtain ⟨hk0l, hk0f⟩ := List.mem_filter.mp hk0mem
          have hge : 4 ≤ k0 := by
            simp only [Bool.not_eq_true', decide_eq_false_iff_not, not_lt] at hk0f
            exact hk0f
          have hpair : k0 - 4 = k ∧ v0 = v := by
            have := Prod.mk.injEq (k0 - 4) v0 k v ▸ hk0eq
            exact Prod.mk.inj hk0eq
          obtain ⟨hks, hv⟩ := hpair
          subst hv
          have hk0val : k0 = k + 4 := by omega
          rw [hk0val] at hk0l
          exact hk0l
    · by_cases hemp : (l.filter fun kv => decide (kv.1 < 4)).isEmpty = true
      · rw [if_pos hemp]; simp
      · rw [if_neg hemp]
        intro hcontra
        injection hcontra with h
        rw [List.isEmpty_iff] at hemp
        exact hemp h
    · by_cases hemp : ((l.filter fun kv => ! decide (kv.1 < 4)).map
          fun kv => (kv.1 - 4, kv.2)).isEmpty = true
      · rw [if_pos hemp]; simp
      · rw [if_neg hemp]
        intro hcontra
        injection hcontra with h
        rw [List.isEmpty_iff] at hemp
        exact hemp h

/-! ### Evaluation lemmas for unpacking and initialization -/

lemma unpack_x_js_ok (m : PSJSModel) (x : List ℝ) (hpm : m.pm_model = "HKY")
    (higc : m.IGC_pm = "One rate") (hlen : x.length = 6) :
    m.unpack_x_js x = ({ m with x_pm := x.take 4, x_IGC := x.drop 4, x_js := x }, .ok ()) := by
  simp [PSJSModel.unpack_x_js, hpm, higc, PMModel.supported, PSJSModel.supported, hlen]

lemma dedup_replicate_four (k : Nat) (hk : 1 ≤ k) : (List.replicate k 4).dedup = [4] := by
  induction k with
  | zero => omega
  | succ k ih =>
    by_cases hk0 : k = 0
    · subst hk0; simp
    · rw [List.replicate_succ, List.dedup_cons_of_mem (List.mem_replicate.mpr ⟨hk0, rfl⟩)]
      exact ih (by omega)

lemma divide_force_ok (m : PSJSModel) (hpm : m.pm_model = "HKY")
    (higc : m.IGC_pm = "One rate") : ∃ res, m.divide_force = .ok res := by
  cases hf : m.force with
  | none =>
    refine ⟨(none, none), ?_⟩
    simp [PSJSModel.divide_force, hf]
  | some l =>
    refine ⟨((if (l.filter fun kv => decide (kv.1 < 4)).isEmpty then none
          else some (l.filter fun kv => decide (kv.1 < 4))),
         (if ((l.filter fun kv => ! decide (kv.1 < 4)).map fun kv => (kv.1 - 4, kv.2)).isEmpty
          then none
          else some ((l.filter fun kv => ! decide (kv.1 < 4)).map fun kv => (kv.1 - 4, kv.2)))), ?_⟩
    simp [PSJSModel.divide_force, hf, hpm, higc, PMModel.supported, PSJSModel.supported]

lemma init_models_eval (m : PSJSModel) (hpm : m.pm_model = "HKY")
    (higc : m.IGC_pm = "One rate") (hlen : m.x_js.length = 6) (hn : 1 ≤ m.n_js) :
    ∃ m', m.init_models = (m', .ok ()) ∧
      m'.state_space_shape = List.replicate (m.n_js * 2) 4 ∧ m'.n_js = m.n_js := by
  have h1 := unpack_x_js_ok m m.x_js hpm higc hlen
  unfold PSJSModel.init_models
  rw [h1]
  dsimp only
  rw [if_pos hpm]
  obtain ⟨⟨pmF, igcF⟩, hdf⟩ := divide_force_ok
    ({ m with x_pm := List.take 4 m.x_js, x_IGC := List.drop 4 m.x_js,
              state_space_shape := List.replicate (m.n_js * 2) 4 }) hpm higc
  rw [hdf]
  dsimp only
  have hded : (List.replicate (m.n_js * 2) 4).dedup.length = 1 := by
    rw [dedup_replicate_four (m.n_js * 2) (by omega)]
    rfl
  rw [if_pos hded]
  unfold PSJSModel.update_by_x_js
  rw [unpack_x_js_ok
      { m with
          x_pm := List.take 4 m.x_js,
          x_IGC := List.drop 4 m.x_js,
          IGC_force := igcF,
          PMModel := { build := m.PMModel.build, x_pm := List.take 4 m.x_js },
          state_space_shape := List.replicate (m.n_js * 2) 4 }
      m.x_js hpm higc hlen]
  dsimp only
  exact ⟨_, rfl, rfl, rfl⟩

lemma replicate_zero_mem_product_states (a k : Nat) (ha : 1 ≤ a) :
    List.replicate k 0 ∈ product_states a k := by
  induction k with
  | zero => simp [product_states]
  | succ k ih =>
    rw [List.replicate_succ]
    simp only [product_states, List.mem_flatMap]
    exact ⟨0, List.mem_range.mpr ha, List.mem_map.mpr ⟨List.replicate k 0, ih, rfl⟩⟩

/-- C10: every public compatibility and rate operation requires the
constructed model to have `n_js = 2`. The initializer builds a state-space
shape of length `2 * n_js`, and `is_transition_compatible` (and therefore
`cal_IGC_transition_rate` and the brute-force assembler, which call it)
asserts that this shape has length exactly 4, so for any model constructed
with `n_js ≠ 2` (and at least 1, so that construction itself succeeds)
every call to these operations fails an assertion instead of computing a
result. -/
theorem n_js_must_be_two (m : PSJSModel) (hpm : m.pm_model = "HKY")
    (higc : m.IGC_pm = "One rate") (hlen : m.x_js.length = 6)
    (hn : 1 ≤ m.n_js) (hne : m.n_js ≠ 2) :
    ∃ m', m.init_models = (m', .ok ()) ∧
      m'.state_space_shape.length = 2 * m.n_js ∧
      (∀ t, ∃ e, m'.is_transition_compatible t = .error e) ∧
      (∀ t n prop, ∃ e, m'.cal_IGC_transition_rate t n prop = .error e) ∧
      (∀ n prop, ∃ e, m'.get_IGC_transition_rates_BF n prop = .error e) := by
  obtain ⟨m', hinit, hshape, hnjs⟩ := init_models_eval m hpm higc hlen hn
  have hlen4 : ¬ m'.state_space_shape.length = 4 := by
    rw [hshape, List.length_replicate]
    omega
  have hcompat : ∀ t, m'.is_transition_compatible t =
      .error "AssertionError: len(state_space_shape) == 4" := by
    intro t
    simp [PSJSModel.is_transition_compatible, hlen4]
  refine ⟨m', hinit, by rw [hshape, List.length_replicate]; ring, ?_, ?_, ?_⟩
  · intro t
    exact ⟨_, hcompat t⟩
  · intro t n prop
    refine ⟨"AssertionError: len(state_space_shape) == 4", ?_⟩
    simp [PSJSModel.cal_IGC_transition_rate, hcompat t]
  · intro n prop
    have ha : 1 ≤ m'.state_space_shape.getD 0 0 := by
      rw [hshape]
      have h2 : ∃ j, m.n_js * 2 = j + 1 := ⟨m.n_js * 2 - 1, by omega⟩
      obtain ⟨j, hj⟩ := h2
      rw [hj, List.replicate_succ, List.getD_cons_zero]
      omega
    have hmem : (List.replicate (m'.n_js * 2) 0, List.replicate (m'.n_js * 2) 0) ∈
        m'.all_state_pairs := by
      unfold PSJSModel.all_state_pairs
      exact List.mem_flatMap.mpr ⟨List.replicate (m'.n_js * 2) 0,
        replicate_zero_mem_product_states _ _ ha,
        List.mem_map.mpr ⟨List.replicate (m'.n_js * 2) 0,
          replicate_zero_mem_product_states _ _ ha, rfl⟩⟩
    cases hap : m'.all_state_pairs with
    | nil =>
      rw [hap] at hmem
      exact absurd hmem (List.not_mem_nil _)
    | cons p rest =>
      refine ⟨"AssertionError: len(state_space_shape) == 4", ?_⟩
      unfold PSJSModel.get_IGC_transition_rates_BF
      rw [hap]
      simp [PSJSModel.rates_BF_from, hcompat p]

/-- Witness for C10: the concrete model constructed with `n_js = 3`
initializes successfully to a shape of length 6 and all its compatibility
and rate operations fail. -/
theorem n_js_must_be_two_witness :
    (threeParalogModel.pm_model = "HKY" ∧ threeParalogModel.IGC_pm = "One rate" ∧
     threeParalogModel.x_js.length = 6 ∧ 1 ≤ threeParalogModel.n_js ∧
     threeParalogModel.n_js ≠ 2) ∧
    ∃ m', threeParalogModel.init_models = (m', .ok ()) ∧
      m'.state_space_shape.length = 2 * threeParalogModel.n_js ∧
      (∀ t, ∃ e, m'.is_transition_compatible t = .error e) ∧
      (∀ t n prop, ∃ e, m'.cal_IGC_transition_rate t n prop = .error e) ∧
      (∀ n prop, ∃ e, m'.get_IGC_transition_rates_BF n prop = .error e) :=
  ⟨⟨rfl, rfl, by simp [threeParalogModel], by norm_num [threeParalogModel],
      by norm_num [threeParalogModel]⟩,
    n_js_must_be_two threeParalogModel rfl rfl (by simp [threeParalogModel])
      (by norm_num [threeParalogModel]) (by norm_num [threeParalogModel])⟩

/-- Witness for C9: the concrete test model stores the force map
`[(1, 0.5), (5, 0.3)]`; its partition satisfies the characterization. -/
theorem divide_force_characterization_witness :
    testModel.force = some [(1, 0.5), (5, 0.3)] ∧
    ∃ pmf igcf, testModel.divide_force = .ok (pmf, igcf) ∧
      (∀ k v, ((k, v) ∈ ([(1, 0.5), (5, 0.3)] : List (Nat × ℝ)) ∧ k < 4) ↔
        ∃ pl, pmf = some pl ∧ (k, v) ∈ pl) ∧
      (∀ k v, ((k + 4, v) ∈ ([(1, 0.5), (5, 0.3)] : List (Nat × ℝ))) ↔
        ∃ il, igcf = some il ∧ (k, v) ∈ il) ∧
      pmf ≠ some [] ∧ igcf ≠ some [] :=
  ⟨rfl, (divide_force_characterization testModel rfl rfl).2 [(1, 0.5), (5, 0.3)] rfl⟩

/-! ### The brute-force assembler refines the spec-side enumeration -/

lemma mem_product_states_length (a k : Nat) (s : JState) (hs : s ∈ product_states a k) :
    s.length = k := by
  induction k generalizing s with
  | zero =>
    simp only [product_states, List.mem_singleton] at hs
    subst hs
    rfl
  | succ k ih =>
    simp only [product_states, List.mem_flatMap, List.mem_map] at hs
    obtain ⟨i, _, rest, hrest, rfl⟩ := hs
    simp [ih rest hrest]

lemma compat_no_error (m : PSJSModel) (h4 : m.state_space_shape.length = 4)
    (sf st : JState) (hsf : sf.length = 4) (hst : st.length = 4) :
    ∃ b, m.is_transition_compatible (sf, st) = .ok b := by
  rw [is_transition_compatible_eval m h4 sf st hsf hst]
  by_cases he : sf = st
  · rw [if_pos he]; exact ⟨false, rfl⟩
  · rw [if_neg he]
    by_cases h2 : (diff_positions sf st).length > 2
    · rw [if_pos h2]; exact ⟨false, rfl⟩
    · rw [if_neg h2]
      by_cases h3 : (diff_positions sf st).length = 2
      · rw [if_pos h3]; split_ifs <;> exact ⟨_, rfl⟩
      · rw [if_neg h3]
        by_cases h1 : (diff_positions sf st).length = 1
        · rw [if_pos h1]; exact ⟨true, rfl⟩
        · have hd0 : (diff_positions sf st).length = 0 := by omega
          have hnil : diff_positions sf st = [] := List.length_eq_zero.mp hd0
          exact absurd (eq_of_diff_positions_nil sf st (hsf.trans hst.symm) hnil) he

lemma rates_BF_from_eval (m : PSJSModel) (n : Nat) (prop : Bool)
    (l : List (JState × JState))
    (hc : ∀ p ∈ l, ∃ b, m.is_transition_compatible p = .ok b)
    (hr : ∀ p ∈ l, m.is_transition_compatible p = .ok true →
      ∃ r, m.cal_IGC_transition_rate p n prop = .ok r) :
    ∃ ts, m.rates_BF_from n prop l = .ok ts ∧
      ts.map (fun t => (t.1, t.2.1)) = l.filter (fun p => compatB m p) ∧
      List.Forall₂ (fun p r => m.cal_IGC_transition_rate p n prop = .ok r)
        (l.filter (fun p => compatB m p)) (ts.map fun t => t.2.2) := by
  induction l with
  | nil => exact ⟨[], rfl, rfl, List.Forall₂.nil⟩
  | cons p rest ih =>
    obtain ⟨b, hb⟩ := hc p (List.mem_cons_self p rest)
    obtain ⟨ts, hts, hmap, hfa⟩ := ih (fun q hq => hc q (List.mem_cons_of_mem p hq))
      (fun q hq => hr q (List.mem_cons_of_mem p hq))
    cases b with
    | false =>
      have hcb : compatB m p = false := by simp [compatB, hb]
      have hfil : (p :: rest).filter (fun q => compatB m q) =
          rest.filter (fun q => compatB m q) := by
        simp [List.filter_cons, hcb]
      refine ⟨ts, ?_, by rw [hfil]; exact hmap, by rw [hfil]; exact hfa⟩
      simp [PSJSModel.rates_BF_from, hb, hts]
    | true =>
      obtain ⟨r, hrate⟩ := hr p (List.mem_cons_self p rest) hb
      have hcb : compatB m p = true := by simp [compatB, hb]
      have hfil : (p :: rest).filter (fun q => compatB m q) =
          p :: rest.filter (fun q => compatB m q) := by
        simp [List.filter_cons, hcb]
      refine ⟨(p.1, p.2, r) :: ts, ?_, ?_, ?_⟩
      · simp [PSJSModel.rates_BF_from, hb, hrate, hts]
      · rw [hfil]
        simp [hmap]
      · rw [hfil]
        simp only [List.map_cons]
        exact List.Forall₂.cons hrate hfa

/-- C4: for every separation `n` and `proportion` flag,
`get_process_definition` returns a record of three equal-length parallel
sequences whose entries, in order, are exactly the pairs of the full
cartesian product of the 4-coordinate state space with itself that satisfy
`is_transition_compatible` (the spec-side enumeration
`compatible_pairs_spec`), each paired with its
`cal_IGC_transition_rate` value; the third sequence is keyed `weights` when
`proportion` is true and `transition_rates` when it is false. -/
theorem get_process_definition_refines_spec (m : PSJSModel) (hn2 : m.n_js = 2)
    (hsh : m.state_space_shape = [4, 4, 4, 4]) (hIGC : m.IGC_pm = "One rate")
    (u v : ℝ) (hx : m.x_IGC = [u, v]) (n : Nat) (prop : Bool) :
    ∃ pd, m.get_process_definition n prop = .ok pd ∧
      pd.row_states = (compatible_pairs_spec m).map Prod.fst ∧
      pd.column_states = (compatible_pairs_spec m).map Prod.snd ∧
      pd.third_key = (if prop then "weights" else "transition_rates") ∧
      pd.third.length = (compatible_pairs_spec m).length ∧
      List.Forall₂ (fun p r => m.cal_IGC_transition_rate p n prop = .ok r)
        (compatible_pairs_spec m) pd.third := by
  have h4 : m.state_space_shape.length = 4 := by rw [hsh]; rfl
  have hpairs : m.all_state_pairs =
      (product_states 4 4).flatMap fun sf =>
        (product_states 4 4).map fun st => (sf, st) := by
    unfold PSJSModel.all_state_pairs
    rw [hsh, hn2]
    rfl
  have hlen4 : ∀ p ∈ m.all_state_pairs, (p.1 : JState).length = 4 ∧ p.2.length = 4 := by
    intro p hp
    rw [hpairs] at hp
    simp only [List.mem_flatMap, List.mem_map] at hp
    obtain ⟨sf, hsf, st, hst, rfl⟩ := hp
    exact ⟨mem_product_states_length 4 4 sf hsf, mem_product_states_length 4 4 st hst⟩
  have hc : ∀ p ∈ m.all_state_pairs, ∃ b, m.is_transition_compatible p = .ok b := by
    intro p hp
    exact compat_no_error m h4 p.1 p.2 (hlen4 p hp).1 (hlen4 p hp).2
  have hr : ∀ p ∈ m.all_state_pairs, m.is_transition_compatible p = .ok true →
      ∃ r, m.cal_IGC_transition_rate p n prop = .ok r := by
    intro p _ hcp
    exact cal_IGC_ok_of_compatible m u v hIGC hx p.1 p.2 n prop hcp
  obtain ⟨ts, hts, hmap, hfa⟩ := rates_BF_from_eval m n prop m.all_state_pairs hc hr
  have hspec : compatible_pairs_spec m =
      m.all_state_pairs.filter (fun p => compatB m p) := by
    unfold compatible_pairs_spec
    rw [← hpairs]
  have hgpd : m.get_process_definition n prop = .ok
      { row_states := ts.map (fun t => t.1),
        column_states := ts.map (fun t => t.2.1),
        third_key := if prop then "weights" else "transition_rates",
        third := ts.map (fun t => t.2.2) } := by
    unfold PSJSModel.get_process_definition PSJSModel.get_IGC_transition_rates_BF
    rw [hts]
  refine ⟨_, hgpd, ?_, ?_, rfl, ?_, ?_⟩
  · rw [hspec, ← hmap, List.map_map]
    rfl
  · rw [hspec, ← hmap, List.map_map]
    rfl
  · rw [hspec, ← hmap]
    simp
  · rw [hspec]
    exact hfa

/-- Witness for C4: the refinement holds for the concrete test model at
separation `n = 1` with absolute rates. -/
theorem get_process_definition_refines_spec_witness :
    (testModel.n_js = 2 ∧ testModel.state_space_shape = [4, 4, 4, 4]) ∧
    ∃ pd, testModel.get_process_definition 1 false = .ok pd ∧
      pd.row_states = (compatible_pairs_spec testModel).map Prod.fst ∧
      pd.column_states = (compatible_pairs_spec testModel).map Prod.snd ∧
      pd.third_key = (if false then "weights" else "transition_rates") ∧
      pd.third.length = (compatible_pairs_spec testModel).length ∧
      List.Forall₂ (fun p r => testModel.cal_IGC_transition_rate p 1 false = .ok r)
        (compatible_pairs_spec testModel) pd.third :=
  ⟨⟨rfl, rfl⟩,
    get_process_definition_refines_spec testModel rfl rfl rfl 0 (-1) rfl 1 false⟩

/-- Witness for C2: concrete instances of all four behaviors of the
compatibility predicate on the concrete test model — a self-transition, a
single-coordinate change, a three-coordinate change, and the
two-coordinate characterization. -/
theorem is_transition_compatible_characterization_witness :
    testModel.state_space_shape.length = 4 ∧
    testModel.is_transition_compatible ([0, 2, 2, 3], [0, 2, 2, 3]) = .ok false ∧
    testModel.is_transition_compatible ([0, 2, 2, 3], [0, 2, 2, 1]) = .ok true ∧
    testModel.is_transition_compatible ([0, 0, 0, 0], [1, 1, 1, 0]) = .ok false ∧
    (testModel.is_transition_compatible ([0, 0, 1, 1], [1, 1, 1, 1]) = .ok true ↔
      (((0 : Nat) ≠ 1 ∧ (0 : Nat) ≠ 1 ∧ (1 : Nat) = 1 ∧ (1 : Nat) = 1) ∧
        (1 : Nat) = 1 ∧ (1 : Nat) = 1) ∨
      (((0 : Nat) = 1 ∧ (0 : Nat) = 1 ∧ (1 : Nat) ≠ 1 ∧ (1 : Nat) ≠ 1) ∧
        (1 : Nat) = 0 ∧ (1 : Nat) = 0)) :=
  ⟨rfl,
    (is_transition_compatible_characterization testModel rfl 0 2 2 3 0 2 2 3).1 rfl,
    (is_transition_compatible_characterization testModel rfl 0 2 2 3 0 2 2 1).2.1 (by decide),
    (is_transition_compatible_characterization testModel rfl 0 0 0 0 1 1 1 0).2.2.1 (by decide),
    (is_transition_compatible_characterization testModel rfl 0 0 1 1 1 1 1 1).2.2.2 (by decide)⟩
